import Mathlib

/-!
Verification of the G2P training recipe (recipes/LibriSpeech/G2P/train.py).

The recipe is glue over the speechbrain framework: `dataio_prep` builds the
three dataset splits with optional duration sorting, attaches the grapheme
and phoneme pipelines, and the `G2PBrain` class supplies the forward, loss,
fit and evaluate hooks.  Framework pieces whose code is not part of the
excerpt (`DynamicItemDataset.filtered_sorted`, the phoneme pipeline, the
gradient-health check, the checkpointer) are modelled from the spec, as
marked in their doc comments.
-/

namespace G2P

/-- One manifest record: an id, the duration field used for sorting, and a
phoneme symbol sequence (the `phn` column). -/
structure Record where
  id : Nat
  duration : Nat
  phn : List String
deriving DecidableEq, Repr

/-- A record after the phoneme pipeline has been attached: the base encoded
phoneme sequence and its bos/eos variants, alongside the original fields. -/
structure EncodedRecord where
  id : Nat
  duration : Nat
  phn_encoded : List Nat
  phn_encoded_bos : List Nat
  phn_encoded_eos : List Nat
deriving DecidableEq, Repr

/-- The dataloader options dictionary; only the shuffle flag matters here. -/
structure DataloaderOpts where
  shuffle : Bool
deriving DecidableEq, Repr

/-- The hyperparameters consumed by `dataio_prep`: the sorting mode string,
the dataloader options, the three manifests and the boundary marker indices. -/
structure HParams where
  sorting : String
  dataloader_opts : DataloaderOpts
  train_data : List Record
  valid_data : List Record
  test_data : List Record
  phonemes : List String
  bos_index : Nat
  eos_index : Nat
deriving DecidableEq, Repr

/-- What `dataio_prep` returns (together with the mutated dataloader options,
which in the Python are updated in place inside `hparams`). -/
structure PrepResult where
  train_data : List EncodedRecord
  valid_data : List EncodedRecord
  test_data : List EncodedRecord
  dataloader_opts : DataloaderOpts
deriving DecidableEq, Repr

/-- Ordering of records by the duration field (ascending). -/
def recLE (a b : Record) : Prop := a.duration ≤ b.duration

/-- Ordering of records by the duration field (descending). -/
def recGE (a b : Record) : Prop := b.duration ≤ a.duration

instance : DecidableRel recLE := fun a b => Nat.decLe a.duration b.duration

instance : DecidableRel recGE := fun a b => Nat.decLe b.duration a.duration

instance : IsTotal Record recLE := ⟨fun a b => Nat.le_total a.duration b.duration⟩

instance : IsTrans Record recLE := ⟨fun _ _ _ h1 h2 => Nat.le_trans h1 h2⟩

instance : IsTotal Record recGE := ⟨fun a b => Nat.le_total b.duration a.duration⟩

instance : IsTrans Record recGE := ⟨fun _ _ _ h1 h2 => Nat.le_trans h2 h1⟩

/-- Modelled from the spec: `DynamicItemDataset.filtered_sorted` (framework
code, not part of the excerpt) sorts the dataset by the given sort key — here
always the duration field — ascending by default, descending when `reverse`
is set. -/
def filtered_sorted (data : List Record) (reverse : Bool) : List Record :=
  if reverse then List.insertionSort recGE data else List.insertionSort recLE data

/-- Modelled from the spec: the phoneme encoder (`TextEncoder`, framework
code not part of the excerpt) is a mapping from phoneme symbols to integer
indices built from the configured phoneme inventory. -/
def encodePhoneme (phonemes : List String) (p : String) : Nat :=
  phonemes.indexOf p

/-- Modelled from the spec: the phoneme pipeline
(`speechbrain.lobes.models.g2p.attnrnn.dataio.phoneme_pipeline`, not part of
the excerpt) encodes the phoneme sequence of a record and derives the two
boundary-marked variants: the bos variant prepends `bos_index` to the base
sequence and the eos variant appends `eos_index` to it. -/
def phoneme_pipeline (phonemes : List String) (bos_index eos_index : Nat)
    (r : Record) : EncodedRecord :=
  let base := r.phn.map (encodePhoneme phonemes)
  { id := r.id
    duration := r.duration
    phn_encoded := base
    phn_encoded_bos := bos_index :: base
    phn_encoded_eos := base ++ [eos_index] }

/-- Shallow embedding of `dataio_prep` from train.py: the training split is
sorted ascending or descending by duration (forcing the dataloader shuffle
flag off), left as is for "random", and any other sorting string raises; the
valid and test splits are always sorted ascending; finally the phoneme
pipeline is attached to all three datasets. -/
def dataio_prep (hp : HParams) : Except String PrepResult :=
  if hp.sorting = "ascending" then
    Except.ok
      { train_data := (filtered_sorted hp.train_data false).map
          (phoneme_pipeline hp.phonemes hp.bos_index hp.eos_index)
        valid_data := (filtered_sorted hp.valid_data false).map
          (phoneme_pipeline hp.phonemes hp.bos_index hp.eos_index)
        test_data := (filtered_sorted hp.test_data false).map
          (phoneme_pipeline hp.phonemes hp.bos_index hp.eos_index)
        dataloader_opts := { hp.dataloader_opts with shuffle := false } }
  else if hp.sorting = "descending" then
    Except.ok
      { train_data := (filtered_sorted hp.train_data true).map
          (phoneme_pipeline hp.phonemes hp.bos_index hp.eos_index)
        valid_data := (filtered_sorted hp.valid_data false).map
          (phoneme_pipeline hp.phonemes hp.bos_index hp.eos_index)
        test_data := (filtered_sorted hp.test_data false).map
          (phoneme_pipeline hp.phonemes hp.bos_index hp.eos_index)
        dataloader_opts := { hp.dataloader_opts with shuffle := false } }
  else if hp.sorting = "random" then
    Except.ok
      { train_data := hp.train_data.map
          (phoneme_pipeline hp.phonemes hp.bos_index hp.eos_index)
        valid_data := (filtered_sorted hp.valid_data false).map
          (phoneme_pipeline hp.phonemes hp.bos_index hp.eos_index)
        test_data := (filtered_sorted hp.test_data false).map
          (phoneme_pipeline hp.phonemes hp.bos_index hp.eos_index)
        dataloader_opts := hp.dataloader_opts }
  else
    Except.error "sorting must be random, ascending or descending"

/-- Ordering of encoded records by the duration field (ascending). -/
def durLE (a b : EncodedRecord) : Prop := a.duration ≤ b.duration

/-- Ordering of encoded records by the duration field (descending). -/
def durGE (a b : EncodedRecord) : Prop := b.duration ≤ a.duration

/-- The training stages of the framework (`sb.Stage`). -/
inductive Stage where
  | TRAIN
  | VALID
  | TEST
deriving DecidableEq, Repr

/-- One scalar of a gradient buffer: either a finite value or a non-finite
one (NaN or an infinity in the Python floats). -/
inductive GradVal where
  | finite (x : Int)
  | nonfinite
deriving DecidableEq, Repr

/-- Whether a gradient scalar is finite. -/
def GradVal.isFinite : GradVal → Bool
  | finite _ => true
  | nonfinite => false

/-- A gradient buffer, one scalar per parameter. -/
abbrev Grads := List GradVal

/-- Modelled from the spec: `Brain.check_gradients` (framework code, not
part of the excerpt) is the gradient-health check; it fails when at least
one gradient value is non-finite. -/
def check_gradients (grads : Grads) : Bool :=
  grads.all GradVal.isFinite

/-- Element-wise accumulation of a fresh batch gradient into the buffer, as
`loss.backward()` does; any non-finite operand yields a non-finite sum. -/
def addGrads (a b : Grads) : Grads :=
  List.zipWith
    (fun x y =>
      match x, y with
      | GradVal.finite u, GradVal.finite v => GradVal.finite (u + v)
      | _, _ => GradVal.nonfinite)
    a b

/-- `optimizer.zero_grad()`: every gradient buffer entry is reset to zero. -/
def zeroGrads (g : Grads) : Grads :=
  g.map fun _ => GradVal.finite 0

/-- One collated batch as the hooks see it: each encoded field comes with
its valid-length metadata. -/
structure Batch where
  id : Nat
  grapheme_encoded : List Nat
  phn_encoded : List Nat
  phn_lens : Nat
  phn_encoded_bos : List Nat
  phn_lens_bos : Nat
  phn_encoded_eos : List Nat
  phn_lens_eos : Nat
deriving DecidableEq, Repr

/-- The tuple `hparams.model` returns: output distributions, valid lengths
and the encoder output fed to the beam searcher.  The tensor contents are
abstract type parameters. -/
structure ModelOut (π χ ε : Type) where
  p_seq : π
  char_lens : χ
  encoder_out : ε
deriving DecidableEq, Repr

/-- What `compute_forward` returns: a pair during TRAIN, a triple with the
decoded hypotheses otherwise. -/
inductive Predictions (π χ η : Type) where
  | train (p_seq : π) (char_lens : χ)
  | eval (p_seq : π) (char_lens : χ) (hyps : η)
deriving DecidableEq, Repr

/-- The mutable state of `G2PBrain` the hooks touch: the model parameters,
the optimizer gradient buffers, and the two metric accumulators (each entry
records the arguments of one `append` call). -/
structure BrainState (P π η : Type) where
  params : P
  grads : Grads
  seq_metrics : List (Nat × π × List Nat × Nat)
  per_metrics : List (Nat × η × List Nat × Nat)
deriving DecidableEq, Repr

/-- Shallow embedding of `G2PBrain.compute_forward`: run the model on the
grapheme input and the bos-marked phoneme targets; outside TRAIN also run
the beam searcher on the encoder output and return its hypotheses. -/
def compute_forward {π χ ε η : Type}
    (model : List Nat → List Nat → ModelOut π χ ε)
    (beam_searcher : ε → χ → η × Int)
    (batch : Batch) (stage : Stage) : Predictions π χ η :=
  let m := model batch.grapheme_encoded batch.phn_encoded_bos
  if stage ≠ Stage.TRAIN then
    Predictions.eval m.p_seq m.char_lens (beam_searcher m.encoder_out m.char_lens).1
  else
    Predictions.train m.p_seq m.char_lens

/-- Shallow embedding of `G2PBrain.compute_objectives`: the loss is the
sequence cost of the output distributions against the eos-marked targets;
outside TRAIN the sequence-loss and PER metric accumulators are appended.
Destructuring predictions of the wrong shape for the stage (a Python
unpacking error) is `none`. -/
def compute_objectives {P π χ η Λ : Type}
    (seq_cost : π → List Nat → Nat → Λ)
    (s : BrainState P π η) (pred : Predictions π χ η)
    (batch : Batch) (stage : Stage) : Option (BrainState P π η × Λ) :=
  if stage = Stage.TRAIN then
    match pred with
    | Predictions.train p_seq _ =>
        some (s, seq_cost p_seq batch.phn_encoded_eos batch.phn_lens_eos)
    | Predictions.eval _ _ _ => none
  else
    match pred with
    | Predictions.eval p_seq _ hyps =>
        some
          ({ s with
              seq_metrics :=
                s.seq_metrics ++ [(batch.id, p_seq, batch.phn_encoded_eos, batch.phn_lens)]
              per_metrics :=
                s.per_metrics ++ [(batch.id, hyps, batch.phn_encoded, batch.phn_lens)] },
            seq_cost p_seq batch.phn_encoded_eos batch.phn_lens_eos)
    | Predictions.train _ _ => none

/-- Shallow embedding of `G2PBrain.fit_batch`: forward, loss, backward
(accumulating gradients via `addGrads · (backward loss)`), the conditional
optimizer step guarded by `check_gradients`, then `zero_grad`; returns the
detached loss.  `backward` is the autograd engine and `optStep` the
optimizer update, both abstract. -/
def fit_batch {P π χ ε η Λ : Type}
    (model : List Nat → List Nat → ModelOut π χ ε)
    (beam_searcher : ε → χ → η × Int)
    (seq_cost : π → List Nat → Nat → Λ)
    (backward : Λ → Grads)
    (optStep : P → Grads → P)
    (s : BrainState P π η) (batch : Batch) : Option (BrainState P π η × Λ) :=
  match compute_objectives seq_cost s
      (compute_forward model beam_searcher batch Stage.TRAIN) batch Stage.TRAIN with
  | none => none
  | some (s1, loss) =>
      let s2 : BrainState P π η := { s1 with grads := addGrads s1.grads (backward loss) }
      let s3 : BrainState P π η :=
        if check_gradients s2.grads then { s2 with params := optStep s2.params s2.grads }
        else s2
      some ({ s3 with grads := zeroGrads s3.grads }, loss)

/-- Shallow embedding of `G2PBrain.evaluate_batch`: forward then loss, no
backward pass, no optimizer step and no gradient reset; returns the
detached loss. -/
def evaluate_batch {P π χ ε η Λ : Type}
    (model : List Nat → List Nat → ModelOut π χ ε)
    (beam_searcher : ε → χ → η × Int)
    (seq_cost : π → List Nat → Nat → Λ)
    (s : BrainState P π η) (batch : Batch) (stage : Stage) :
    Option (BrainState P π η × Λ) :=
  compute_objectives seq_cost s
    (compute_forward model beam_searcher batch stage) batch stage

/-- A retained checkpoint: only its recorded PER metric matters here. -/
structure Checkpoint where
  per : Int
deriving DecidableEq, Repr

/-- The checkpoint among `c :: rest` with the smallest PER (the first one on
ties). -/
def bestCheckpoint : Checkpoint → List Checkpoint → Checkpoint
  | c, [] => c
  | c, d :: rest => bestCheckpoint (if d.per < c.per then d else c) rest

/-- Modelled from the spec: `Checkpointer.save_and_keep_only` with
`min_keys=["PER"]` (framework code, not part of the excerpt) saves a new
checkpoint carrying the given PER and then deletes every retained
checkpoint except the one whose PER is smallest. -/
def save_and_keep_only (kept : List Checkpoint) (per : Int) : List Checkpoint :=
  match kept ++ [⟨per⟩] with
  | [] => []
  | c :: rest => [bestCheckpoint c rest]

/-- The checkpoint-relevant effect of `G2PBrain.on_stage_end` at the end of
a VALID stage: persist a checkpoint with the epoch's PER and prune to the
best. -/
def on_stage_end_valid_ckpt (ckpts : List Checkpoint) (per : Int) : List Checkpoint :=
  save_and_keep_only ckpts per

instance : DecidableRel durLE := fun a b => Nat.decLe a.duration b.duration

instance : DecidableRel durGE := fun a b => Nat.decLe b.duration a.duration

/-- A small concrete configuration: a 3-entry training manifest with
durations [5, 1, 3], sorting "ascending", and shuffle initially on. -/
def hp3 : HParams :=
  { sorting := "ascending"
    dataloader_opts := { shuffle := true }
    train_data := [⟨0, 5, []⟩, ⟨1, 1, ["AA"]⟩, ⟨2, 3, []⟩]
    valid_data := [⟨3, 2, []⟩, ⟨4, 1, []⟩]
    test_data := [⟨5, 4, []⟩]
    phonemes := ["AA", "AE"]
    bos_index := 0
    eos_index := 1 }

/-- The result of `dataio_prep` on `hp3`. -/
def prep3 : PrepResult :=
  match dataio_prep hp3 with
  | Except.ok r => r
  | Except.error _ => ⟨[], [], [], ⟨false⟩⟩

/-- Every record of every split output by `dataio_prep` comes out of the
phoneme pipeline, whose three encoded fields are in lockstep by
construction. -/
theorem mem_map_pipe {ph : List String} {b e : Nat} {l : List Record}
    {r : EncodedRecord} (hr : r ∈ l.map (phoneme_pipeline ph b e)) :
    r.phn_encoded_bos = b :: r.phn_encoded ∧
    r.phn_encoded_eos = r.phn_encoded ++ [e] := by
  rcases List.mem_map.mp hr with ⟨a, _, rfl⟩
  exact ⟨rfl, rfl⟩

/-- C1: for every record produced by the dataset pipeline, the three
encoded-phoneme fields are projections of one base sequence:
`phn_encoded_bos` is `bos_index` prepended to `phn_encoded` and
`phn_encoded_eos` is `phn_encoded` with `eos_index` appended. -/
theorem encoded_variants_lockstep (hp : HParams) (res : PrepResult)
    (h : dataio_prep hp = Except.ok res) (r : EncodedRecord)
    (hr : r ∈ res.train_data ++ res.valid_data ++ res.test_data) :
    r.phn_encoded_bos = hp.bos_index :: r.phn_encoded ∧
    r.phn_encoded_eos = r.phn_encoded ++ [hp.eos_index] := by
  unfold dataio_prep at h
  split at h <;> [skip; split at h] <;> [skip; skip; split at h] <;>
    simp only [Except.ok.injEq, reduceCtorEq] at h <;> subst h <;>
    rcases List.mem_append.mp hr with hm | hm <;>
      first
        | exact mem_map_pipe hm
        | rcases List.mem_append.mp hm with hm2 | hm2 <;> exact mem_map_pipe hm2

/-- Witness for C1 at the concrete configuration `hp3`. -/
theorem encoded_variants_lockstep_witness :
    (⟨1, 1, [0], [0, 0], [0, 1]⟩ : EncodedRecord).phn_encoded_bos =
        hp3.bos_index :: (⟨1, 1, [0], [0, 0], [0, 1]⟩ : EncodedRecord).phn_encoded ∧
      (⟨1, 1, [0], [0, 0], [0, 1]⟩ : EncodedRecord).phn_encoded_eos =
        (⟨1, 1, [0], [0, 0], [0, 1]⟩ : EncodedRecord).phn_encoded ++ [hp3.eos_index] :=
  encoded_variants_lockstep hp3 prep3 rfl ⟨1, 1, [0], [0, 0], [0, 1]⟩ (by decide)

/-- C2: sorting "ascending" makes the training split non-decreasing in
duration and "descending" non-increasing; on the concrete 3-entry manifest
with durations [5, 1, 3] and ascending sorting the iteration order of
durations is [1, 3, 5]. -/
theorem train_sorted_by_duration :
    (∀ hp res, dataio_prep hp = Except.ok res →
      (hp.sorting = "ascending" → List.Sorted durLE res.train_data) ∧
      (hp.sorting = "descending" → List.Sorted durGE res.train_data)) ∧
    dataio_prep hp3 = Except.ok prep3 ∧
    prep3.train_data.map EncodedRecord.duration = [1, 3, 5] := by
  refine ⟨?_, rfl, rfl⟩
  intro hp res h
  unfold dataio_prep at h
  by_cases h1 : hp.sorting = "ascending"
  · rw [if_pos h1] at h
    simp only [Except.ok.injEq] at h
    subst h
    refine ⟨fun _ => ?_, fun hd => absurd (h1.symm.trans hd) (by decide)⟩
    exact List.pairwise_map.mpr (List.sorted_insertionSort recLE _)
  · rw [if_neg h1] at h
    by_cases h2 : hp.sorting = "descending"
    · rw [if_pos h2] at h
      simp only [Except.ok.injEq] at h
      subst h
      refine ⟨fun ha => absurd (h2.symm.trans ha) (by decide), fun _ => ?_⟩
      exact List.pairwise_map.mpr (List.sorted_insertionSort recGE _)
    · exact ⟨fun ha => absurd ha h1, fun hd => absurd hd h2⟩

/-- Witness for C2: the theorem applied at the concrete configuration
`hp3` (ascending sorting, durations [5, 1, 3]). -/
theorem train_sorted_by_duration_witness :
    List.Sorted durLE prep3.train_data ∧
    prep3.train_data.map EncodedRecord.duration = [1, 3, 5] :=
  ⟨(train_sorted_by_duration.1 hp3 prep3 rfl).1 rfl, rfl⟩

/-- C3: `dataio_prep` raises exactly when the sorting mode is none of
"ascending", "descending", "random". -/
theorem sorting_mode_error_iff (hp : HParams) :
    (∃ e, dataio_prep hp = Except.error e) ↔
      ¬(hp.sorting = "ascending" ∨ hp.sorting = "descending" ∨
        hp.sorting = "random") := by
  unfold dataio_prep
  by_cases h1 : hp.sorting = "ascending" <;>
    by_cases h2 : hp.sorting = "descending" <;>
      by_cases h3 : hp.sorting = "random" <;>
        simp [h1, h2, h3]

/-- C4: when sorting is "ascending" or "descending", the dataloader shuffle
option after `dataio_prep` is off regardless of its configured value. -/
theorem sorted_forces_no_shuffle (hp : HParams) (res : PrepResult)
    (h : dataio_prep hp = Except.ok res)
    (hs : hp.sorting = "ascending" ∨ hp.sorting = "descending") :
    res.dataloader_opts.shuffle = false := by
  unfold dataio_prep at h
  rcases hs with h1 | h1
  · rw [if_pos h1] at h
    simp only [Except.ok.injEq] at h
    subst h
    rfl
  · have hne : ¬hp.sorting = "ascending" := fun ha =>
      absurd (ha.symm.trans h1) (by decide)
    rw [if_neg hne, if_pos h1] at h
    simp only [Except.ok.injEq] at h
    subst h
    rfl

/-- Witness for C4: `hp3` configures shuffle on, yet after `dataio_prep`
it is off. -/
theorem sorted_forces_no_shuffle_witness :
    hp3.dataloader_opts.shuffle = true ∧ prep3.dataloader_opts.shuffle = false :=
  ⟨rfl, sorted_forces_no_shuffle hp3 prep3 rfl (Or.inl rfl)⟩

/-- C9: the valid and test splits are always sorted non-decreasing in
duration, whatever the sorting mode. -/
theorem valid_test_always_sorted (hp : HParams) (res : PrepResult)
    (h : dataio_prep hp = Except.ok res) :
    List.Sorted durLE res.valid_data ∧ List.Sorted durLE res.test_data := by
  unfold dataio_prep at h
  split at h <;> [skip; split at h] <;> [skip; skip; split at h] <;>
    simp only [Except.ok.injEq, reduceCtorEq] at h <;> subst h <;>
    exact ⟨List.pairwise_map.mpr (List.sorted_insertionSort recLE _),
      List.pairwise_map.mpr (List.sorted_insertionSort recLE _)⟩

/-- Witness for C9 at the concrete configuration `hp3`. -/
theorem valid_test_always_sorted_witness :
    List.Sorted durLE prep3.valid_data ∧ List.Sorted durLE prep3.test_data :=
  valid_test_always_sorted hp3 prep3 rfl

/-- C7: `compute_forward` returns the (distributions, lengths) pair at
TRAIN stage and for every other stage the triple extended with the beam
searcher's hypotheses over the encoder output. -/
theorem compute_forward_by_stage {π χ ε η : Type}
    (model : List Nat → List Nat → ModelOut π χ ε)
    (beam_searcher : ε → χ → η × Int) (batch : Batch) :
    compute_forward model beam_searcher batch Stage.TRAIN =
      Predictions.train (model batch.grapheme_encoded batch.phn_encoded_bos).p_seq
        (model batch.grapheme_encoded batch.phn_encoded_bos).char_lens ∧
    ∀ stage : Stage, stage ≠ Stage.TRAIN →
      compute_forward model beam_searcher batch stage =
        Predictions.eval (model batch.grapheme_encoded batch.phn_encoded_bos).p_seq
          (model batch.grapheme_encoded batch.phn_encoded_bos).char_lens
          (beam_searcher
            (model batch.grapheme_encoded batch.phn_encoded_bos).encoder_out
            (model batch.grapheme_encoded batch.phn_encoded_bos).char_lens).1 := by
  constructor
  · simp [compute_forward]
  · intro stage hst
    simp [compute_forward, hst]

/-- A concrete model for witnesses: ignores its inputs. -/
def mdl0 : List Nat → List Nat → ModelOut Nat Nat Nat := fun _ _ => ⟨0, 1, 2⟩

/-- A concrete beam searcher for witnesses. -/
def beam0 : Nat → Nat → Nat × Int := fun _ _ => (5, 9)

/-- A concrete batch for witnesses. -/
def batch0 : Batch := ⟨0, [1], [2], 1, [0, 2], 2, [2, 1], 2⟩

/-- Witness for C7 at a non-TRAIN stage. -/
theorem compute_forward_by_stage_witness :
    compute_forward mdl0 beam0 batch0 Stage.VALID =
      Predictions.eval (mdl0 batch0.grapheme_encoded batch0.phn_encoded_bos).p_seq
        (mdl0 batch0.grapheme_encoded batch0.phn_encoded_bos).char_lens
        (beam0 (mdl0 batch0.grapheme_encoded batch0.phn_encoded_bos).encoder_out
          (mdl0 batch0.grapheme_encoded batch0.phn_encoded_bos).char_lens).1 :=
  (compute_forward_by_stage mdl0 beam0 batch0).2 Stage.VALID (by decide)

/-- C8: `evaluate_batch` on a non-TRAIN stage returns the loss and the
state with only the two metric accumulators extended; in particular model
parameters and gradient buffers are untouched. -/
theorem evaluate_batch_frame {P π χ ε η Λ : Type}
    (model : List Nat → List Nat → ModelOut π χ ε)
    (beam_searcher : ε → χ → η × Int)
    (seq_cost : π → List Nat → Nat → Λ)
    (s : BrainState P π η) (batch : Batch) (stage : Stage)
    (hstage : stage ≠ Stage.TRAIN) :
    evaluate_batch model beam_searcher seq_cost s batch stage =
      some
        ({ s with
            seq_metrics := s.seq_metrics ++
              [(batch.id, (model batch.grapheme_encoded batch.phn_encoded_bos).p_seq,
                batch.phn_encoded_eos, batch.phn_lens)]
            per_metrics := s.per_metrics ++
              [(batch.id,
                (beam_searcher
                  (model batch.grapheme_encoded batch.phn_encoded_bos).encoder_out
                  (model batch.grapheme_encoded batch.phn_encoded_bos).char_lens).1,
                batch.phn_encoded, batch.phn_lens)] },
          seq_cost (model batch.grapheme_encoded batch.phn_encoded_bos).p_seq
            batch.phn_encoded_eos batch.phn_lens_eos) ∧
    ∀ s2 loss,
      evaluate_batch model beam_searcher seq_cost s batch stage = some (s2, loss) →
        s2.params = s.params ∧ s2.grads = s.grads := by
  have hmain : evaluate_batch model beam_searcher seq_cost s batch stage =
      some
        ({ s with
            seq_metrics := s.seq_metrics ++
              [(batch.id, (model batch.grapheme_encoded batch.phn_encoded_bos).p_seq,
                batch.phn_encoded_eos, batch.phn_lens)]
            per_metrics := s.per_metrics ++
              [(batch.id,
                (beam_searcher
                  (model batch.grapheme_encoded batch.phn_encoded_bos).encoder_out
                  (model batch.grapheme_encoded batch.phn_encoded_bos).char_lens).1,
                batch.phn_encoded, batch.phn_lens)] },
          seq_cost (model batch.grapheme_encoded batch.phn_encoded_bos).p_seq
            batch.phn_encoded_eos batch.phn_lens_eos) := by
    simp [evaluate_batch, compute_forward, compute_objectives, hstage]
  refine ⟨hmain, ?_⟩
  intro s2 loss h2
  rw [hmain] at h2
  simp only [Option.some.injEq, Prod.mk.injEq] at h2
  rcases h2 with ⟨hs2, _⟩
  subst hs2
  exact ⟨rfl, rfl⟩

/-- A concrete sequence cost for witnesses. -/
def seq_cost0 : Nat → List Nat → Nat → Nat := fun _ _ _ => 7

/-- A concrete brain state for witnesses: params 0, one finite gradient,
empty metric accumulators. -/
def brain0 : BrainState Int Nat Nat := ⟨0, [GradVal.finite 1], [], []⟩

/-- Witness for C8 at the TEST stage on concrete data. -/
theorem evaluate_batch_frame_witness :
    evaluate_batch mdl0 beam0 seq_cost0 brain0 batch0 Stage.TEST =
      some
        ({ brain0 with
            seq_metrics := brain0.seq_metrics ++
              [(batch0.id, (mdl0 batch0.grapheme_encoded batch0.phn_encoded_bos).p_seq,
                batch0.phn_encoded_eos, batch0.phn_lens)]
            per_metrics := brain0.per_metrics ++
              [(batch0.id,
                (beam0 (mdl0 batch0.grapheme_encoded batch0.phn_encoded_bos).encoder_out
                  (mdl0 batch0.grapheme_encoded batch0.phn_encoded_bos).char_lens).1,
                batch0.phn_encoded, batch0.phn_lens)] },
          seq_cost0 (mdl0 batch0.grapheme_encoded batch0.phn_encoded_bos).p_seq
            batch0.phn_encoded_eos batch0.phn_lens_eos) :=
  (evaluate_batch_frame mdl0 beam0 seq_cost0 brain0 batch0 Stage.TEST (by decide)).1

/-- The training loss computed by `fit_batch` before backward: the sequence
cost of the model output against the eos-marked targets. -/
def trainLoss {π χ ε Λ : Type} (model : List Nat → List Nat → ModelOut π χ ε)
    (seq_cost : π → List Nat → Nat → Λ) (batch : Batch) : Λ :=
  seq_cost (model batch.grapheme_encoded batch.phn_encoded_bos).p_seq
    batch.phn_encoded_eos batch.phn_lens_eos

/-- The gradient-health check fails whenever the buffer holds a non-finite
value. -/
theorem check_gradients_eq_false_of_mem {g : Grads}
    (h : GradVal.nonfinite ∈ g) : check_gradients g = false := by
  refine Bool.eq_false_iff.mpr fun hall => ?_
  have hfin := List.all_eq_true.mp hall _ h
  simp [GradVal.isFinite] at hfin

/-- C5: when the gradients after backward hold a non-finite value, the
health check fails, `fit_batch` skips the optimizer step — parameters
unchanged — zeroes the buffers and still returns the loss (training
continues). -/
theorem fit_batch_skips_step_on_nonfinite {P π χ ε η Λ : Type}
    (model : List Nat → List Nat → ModelOut π χ ε)
    (beam_searcher : ε → χ → η × Int)
    (seq_cost : π → List Nat → Nat → Λ)
    (backward : Λ → Grads) (optStep : P → Grads → P)
    (s : BrainState P π η) (batch : Batch)
    (hbad : GradVal.nonfinite ∈
      addGrads s.grads (backward (trainLoss model seq_cost batch))) :
    fit_batch model beam_searcher seq_cost backward optStep s batch =
      some
        ({ s with grads :=
            zeroGrads (addGrads s.grads (backward (trainLoss model seq_cost batch))) },
          trainLoss model seq_cost batch) := by
  have hc := check_gradients_eq_false_of_mem hbad
  simp [fit_batch, compute_forward, compute_objectives, trainLoss] at hc ⊢
  simp [hc]

/-- Witness for C5: a backward pass producing a non-finite gradient on
concrete data; the parameters stay at `brain0.params`. -/
theorem fit_batch_skips_step_witness :
    fit_batch mdl0 beam0 seq_cost0 (fun _ => [GradVal.nonfinite])
        (fun p _ => p + 1) brain0 batch0 =
      some
        ({ brain0 with grads :=
            (zeroGrads (addGrads brain0.grads
              ((fun _ => [GradVal.nonfinite]) (trainLoss mdl0 seq_cost0 batch0)))) },
          trainLoss mdl0 seq_cost0 batch0) :=
  fit_batch_skips_step_on_nonfinite mdl0 beam0 seq_cost0
    (fun _ => [GradVal.nonfinite]) (fun p _ => p + 1) brain0 batch0 (by decide)

/-- C10: whatever `fit_batch` returns, the gradient buffers of the
resulting state are the zeroed buffers — also when the optimizer step was
skipped. -/
theorem fit_batch_zeroes_grads {P π χ ε η Λ : Type}
    (model : List Nat → List Nat → ModelOut π χ ε)
    (beam_searcher : ε → χ → η × Int)
    (seq_cost : π → List Nat → Nat → Λ)
    (backward : Λ → Grads) (optStep : P → Grads → P)
    (s : BrainState P π η) (batch : Batch) (s2 : BrainState P π η) (loss : Λ)
    (h : fit_batch model beam_searcher seq_cost backward optStep s batch =
      some (s2, loss)) :
    s2.grads = zeroGrads (addGrads s.grads (backward loss)) := by
  simp [fit_batch, compute_forward, compute_objectives] at h
  rcases h with ⟨hs2, hloss⟩
  subst hloss
  by_cases hc : check_gradients (addGrads s.grads
      (backward (seq_cost (model batch.grapheme_encoded batch.phn_encoded_bos).p_seq
        batch.phn_encoded_eos batch.phn_lens_eos)))
  · rw [if_pos hc] at hs2
    rw [← hs2]
  · rw [if_neg hc] at hs2
    rw [← hs2]

/-- Witness for C10: the skipped-step run of the C5 witness still ends
with zeroed gradient buffers. -/
theorem fit_batch_zeroes_grads_witness :
    ({ brain0 with grads :=
        (zeroGrads (addGrads brain0.grads
          ((fun _ => [GradVal.nonfinite]) (trainLoss mdl0 seq_cost0 batch0)))) }
      : BrainState Int Nat Nat).grads =
      zeroGrads (addGrads brain0.grads
        ((fun _ => [GradVal.nonfinite]) (trainLoss mdl0 seq_cost0 batch0))) :=
  fit_batch_zeroes_grads mdl0 beam0 seq_cost0 (fun _ => [GradVal.nonfinite])
    (fun p _ => p + 1) brain0 batch0 _ _ (by rfl)

/-- One VALID-end step on a singleton retained set keeps the checkpoint
with the smaller PER. -/
theorem on_stage_end_valid_ckpt_single (c : Checkpoint) (p : Int) :
    on_stage_end_valid_ckpt [c] p = [⟨min c.per p⟩] := by
  have h1 : on_stage_end_valid_ckpt [c] p =
      [bestCheckpoint (if p < c.per then ⟨p⟩ else c) []] := rfl
  rw [h1]
  by_cases hlt : p < c.per
  · rw [if_pos hlt, min_eq_right (le_of_lt hlt)]
    rfl
  · rw [if_neg hlt, min_eq_left (le_of_not_lt hlt)]
    rfl

/-- Folding VALID-end steps from a singleton retained set keeps exactly one
checkpoint, whose PER is the running minimum. -/
theorem foldl_ckpt_single (l : List Int) (c : Checkpoint) :
    l.foldl on_stage_end_valid_ckpt [c] = [⟨l.foldl min c.per⟩] := by
  induction l generalizing c with
  | nil => simp
  | cons p rest ih =>
      rw [List.foldl_cons, on_stage_end_valid_ckpt_single, List.foldl_cons]
      exact ih ⟨min c.per p⟩

/-- C6: after each VALID stage end the retained set is exactly one
checkpoint, whose PER is the minimum of all PERs recorded so far. -/
theorem valid_ckpt_keeps_best (pers : List Int) (hne : pers ≠ []) :
    (pers.foldl on_stage_end_valid_ckpt []).length = 1 ∧
    (pers.foldl on_stage_end_valid_ckpt []).map Checkpoint.per = pers.min?.toList := by
  cases pers with
  | nil => cases hne rfl
  | cons p rest =>
      rw [List.foldl_cons]
      have h0 : on_stage_end_valid_ckpt [] p = [(⟨p⟩ : Checkpoint)] := rfl
      rw [h0, foldl_ckpt_single]
      exact ⟨rfl, by rw [List.min?_cons']; rfl⟩

/-- Witness for C6 on the PER sequence [3, 1, 2]: one checkpoint retained,
with PER 1. -/
theorem valid_ckpt_keeps_best_witness :
    (([3, 1, 2] : List Int).foldl on_stage_end_valid_ckpt []).length = 1 ∧
    (([3, 1, 2] : List Int).foldl on_stage_end_valid_ckpt []).map Checkpoint.per =
      ([3, 1, 2] : List Int).min?.toList :=
  valid_ckpt_keeps_best [3, 1, 2] (by decide)

end G2P
